import Mathlib

/-!
Shallow embedding of the Global Healthcare Data ETL & Analysis CLI
(api_client.py, data_transformer.py, mysql_handler.py, main.py,
dashboard.py) together with proofs about its specified properties.

Conventions of the embedding:
* Python scalar values flowing through dynamically-typed record fields are
  modelled by `PyVal` (integers, strings, None).
* Python exceptions are modelled with `Except PyErr`; a `try/except`
  clause that catches a class of errors is modelled by matching on the
  corresponding error and producing the handler's result.
* The HTTP layer is modelled as an `Except Unit resp` argument:
  `.error ()` stands for a `requests.exceptions.RequestException`,
  `.ok data` for a successful JSON response of the given shape.
* `datetime.strptime` for the two formats used by the source
  (`%Y-%m-%d` and `%m/%d/%y`) is implemented as an executable string
  parser, including calendar validity (month range, month lengths, leap
  years) and CPython's two-digit-year pivot (00-68 -> 2000s, 69-99 ->
  1900s).  `int(...)` applied to strings is implemented with optional
  surrounding whitespace and an optional sign (underscore digit grouping
  is not modelled).
-/

namespace ETL

/-- A Python scalar value as it appears in record fields / JSON leaves. -/
inductive PyVal where
  | vInt (n : Int)
  | vStr (s : String)
  | vNone
deriving DecidableEq, Repr

/-- The Python exceptions relevant to the modelled code paths. -/
inductive PyErr where
  | valueError
  | typeError
  | attributeError
deriving DecidableEq, Repr

/-- Decimal digit lookup used by the strptime / int models (48 is the
code point of the zero digit). -/
def digitVal? (c : Char) : Option Nat :=
  if c.isDigit then some (c.toNat - 48) else none

/-- Greedy match of `\d{1,2}` (as in CPython strptime for `%m`, `%d`, `%y`). -/
def take1or2 : List Char → Option (Nat × List Char)
  | [] => none
  | c1 :: rest1 =>
    match digitVal? c1 with
    | none => none
    | some v1 =>
      match rest1 with
      | [] => some (v1, [])
      | c2 :: rest2 =>
        match digitVal? c2 with
        | none => some (v1, c2 :: rest2)
        | some v2 => some (v1 * 10 + v2, rest2)

/-- Match of `\d\d\d\d` (CPython strptime for `%Y`). -/
def take4 : List Char → Option (Nat × List Char)
  | a :: b :: c :: d :: rest =>
    match digitVal? a, digitVal? b, digitVal? c, digitVal? d with
    | some va, some vb, some vc, some vd => some (((va * 10 + vb) * 10 + vc) * 10 + vd, rest)
    | _, _, _, _ => none
  | _ => none

/-- A calendar date as held by a `datetime` at midnight. -/
structure Date where
  year : Nat
  month : Nat
  day : Nat
deriving DecidableEq, Repr

def isLeap (y : Nat) : Bool := (y % 4 == 0 && y % 100 != 0) || y % 400 == 0

def daysInMonth (y m : Nat) : Nat :=
  if m == 2 then (if isLeap y then 29 else 28)
  else if m == 4 || m == 6 || m == 9 || m == 11 then 30
  else 31

/-- The validity check `datetime` performs on construction. -/
def validDate (d : Date) : Bool :=
  1 ≤ d.year && d.year ≤ 9999 && 1 ≤ d.month && d.month ≤ 12 &&
    1 ≤ d.day && d.day ≤ daysInMonth d.year d.month

/-- Order-reflecting key: `datetime` comparison of midnight datetimes is
lexicographic on (year, month, day), which for valid dates agrees with
this numeric key. -/
def dateKey (d : Date) : Nat := d.year * 10000 + d.month * 100 + d.day

/-- Comparison `datetime <= datetime`. -/
def dle (a b : Date) : Bool := dateKey a ≤ dateKey b

/-- Model of `datetime.strptime(s, "%Y-%m-%d")`, returning `none` for ValueError. -/
def parseYMD (s : String) : Option Date :=
  match take4 s.toList with
  | some (y, '-' :: r1) =>
    match take1or2 r1 with
    | some (m, '-' :: r2) =>
      match take1or2 r2 with
      | some (d, []) =>
        let dt : Date := ⟨y, m, d⟩
        if validDate dt then some dt else none
      | _ => none
    | _ => none
  | _ => none

/-- Model of `datetime.strptime(s, "%m/%d/%y")`, returning `none` for ValueError.
CPython pivots the two-digit year: 0-68 to 2000-2068, 69-99 to 1969-1999. -/
def parseMDY (s : String) : Option Date :=
  match take1or2 s.toList with
  | some (m, '/' :: r1) =>
    match take1or2 r1 with
    | some (d, '/' :: r2) =>
      match take1or2 r2 with
      | some (yy, []) =>
        let y := if yy ≤ 68 then 2000 + yy else 1900 + yy
        let dt : Date := ⟨y, m, d⟩
        if validDate dt then some dt else none
      | _ => none
    | _ => none
  | _ => none

def padTo2 (n : Nat) : String := if n < 10 then "0" ++ toString n else toString n

/-- Model of `date_obj.strftime("%Y-%m-%d")`.  All dates produced by `parseMDY`
have a four-digit year (1969-2068), so no year padding question arises. -/
def isoFormat (d : Date) : String :=
  toString d.year ++ "-" ++ padTo2 d.month ++ "-" ++ padTo2 d.day

def isPySpace (c : Char) : Bool :=
  c == ' ' || c == '\t' || c == '\n' || c == '\r' || c == '\x0b' || c == '\x0c'

/-- Value of a nonempty all-digit run. -/
def digitsVal : List Char → Option Nat
  | [] => none
  | l =>
    l.foldl (fun acc c =>
      match acc, digitVal? c with
      | some a, some v => some (a * 10 + v)
      | _, _ => none) (some 0)

/-- Python `int(s)` on a string: optional surrounding whitespace, optional
sign, then a nonempty digit run (underscore grouping not modelled). -/
def pyIntOfString (s : String) : Option Int :=
  let t := ((s.toList.dropWhile isPySpace).reverse.dropWhile isPySpace).reverse
  match t with
  | '-' :: rest => (digitsVal rest).map (fun n => -(n : Int))
  | '+' :: rest => (digitsVal rest).map (fun n => (n : Int))
  | rest => (digitsVal rest).map (fun n => (n : Int))

/-- Python `int(value)`: identity on ints, parse on strings (ValueError on
failure), TypeError on None. -/
def pyInt : PyVal → Except PyErr Int
  | .vInt n => .ok n
  | .vStr s =>
    match pyIntOfString s with
    | some n => .ok n
    | none => .error .valueError
  | .vNone => .error .typeError

/-- A Python dict with string keys (insertion-ordered assoc list). -/
abbrev Record := List (String × PyVal)

/-- Python `record.get(k)` (returns None when the key is absent). -/
def rget? (r : Record) (k : String) : Option PyVal :=
  (r.find? (fun p => p.1 == k)).map (fun p => p.2)

/-- Python `record.get(k, dflt)`. -/
def rget (r : Record) (k : String) (dflt : PyVal) : PyVal :=
  (rget? r k).getD dflt

/-! ## data_transformer.py -/

/-- Coercion `int(v)` wrapped in `try: ... except (TypeError, ValueError): x = 0`,
as each numeric field of `transform_data` is coerced. -/
def coerceInt (v : PyVal) : Int :=
  match pyInt v with
  | .ok n => n
  | .error _ => 0

/-- The normalized 5-tuple `(country, date, cases, deaths, recovered)`
appended by `transform_data`.  `country`/`date` are kept as the raw Python
values the source leaves them as. -/
structure CaseTuple where
  country : PyVal
  date : PyVal
  cases : Int
  deaths : Int
  recovered : Int
deriving DecidableEq, Repr

/-- One loop iteration of `transform_data` (data_transformer.py lines 3-21). -/
def normalizeCaseRecord (r : Record) : CaseTuple :=
  { country := rget r "country" (.vStr "Unknown")
  , date := (rget? r "date").getD .vNone
  , cases := coerceInt (rget r "cases" (.vInt 0))
  , deaths := coerceInt (rget r "deaths" (.vInt 0))
  , recovered := coerceInt (rget r "recovered" (.vInt 0)) }

/-- Function `transform_data` (data_transformer.py lines 1-22). -/
def transform_data (l : List Record) : List CaseTuple :=
  l.map normalizeCaseRecord

/-- The two input shapes `transform_vaccine_data` duck-types on
(`isinstance(record, tuple)`): a 3-tuple or a mapping. -/
inductive VaxInput where
  | tup (c d v : PyVal)
  | map (r : Record)
deriving DecidableEq, Repr

/-- The normalized 3-tuple `(country, date, vaccinations)`. -/
structure VaxTuple where
  country : PyVal
  date : PyVal
  vaccinations : Int
deriving DecidableEq, Repr

/-- One loop iteration of `transform_vaccine_data` (data_transformer.py
lines 26-33).  Only the `int(...)` call can raise TypeError/ValueError
here, and the `except` clause zeroes `vaccinations` while keeping the
already-assigned `country`/`date`; `coerceInt` captures exactly that. -/
def normalizeVaxRecord : VaxInput → VaxTuple
  | .tup c d v => { country := c, date := d, vaccinations := coerceInt v }
  | .map r =>
    { country := rget r "country" (.vStr "Unknown")
    , date := (rget? r "date").getD .vNone
    , vaccinations := coerceInt (rget r "vaccinations" (.vInt 0)) }

/-- Function `transform_vaccine_data` (data_transformer.py lines 24-34). -/
def transform_vaccine_data (l : List VaxInput) : List VaxTuple :=
  l.map normalizeVaxRecord

/-! ## api_client.py -/

/-- The `data['timeline']` object of the cases endpoint: three per-metric
date-string-to-value mappings.  `data['timeline'].get('cases', {})`
yielding `{}` for an absent key is modelled by an empty list. -/
structure CaseTimeline where
  cases : List (String × PyVal)
  deaths : List (String × PyVal)
  recovered : List (String × PyVal)
deriving DecidableEq, Repr

/-- A successfully decoded JSON response of the cases endpoint: the
`timeline` key may be absent. -/
structure CaseResponse where
  timeline : Option CaseTimeline
deriving DecidableEq, Repr

/-- A record dict appended by `APIClient.fetch_data`. -/
structure CaseRecordOut where
  date : String
  country : String
  cases : PyVal
  deaths : PyVal
  recovered : PyVal
deriving DecidableEq, Repr

/-- Python `mapping.get(k, 0)` on a timeline mapping. -/
def tlget (tl : List (String × PyVal)) (k : String) : PyVal :=
  ((tl.find? (fun p => p.1 == k)).map (fun p => p.2)).getD (.vInt 0)

/-- Method `APIClient.fetch_data` (api_client.py lines 12-51).  `resp` stands for
the transport: `.error ()` is a RequestException (caught: log + return
`[]`), `.ok data` a decoded JSON body.  The `except` clause catches only
`requests.exceptions.RequestException`, so the ValueError raised by
`strptime` on a malformed `start_date`/`end_date` propagates — but only
after the `timeline` check, matching the source's statement order. -/
def fetch_data (resp : Except Unit CaseResponse) (country start_date end_date : String) :
    Except PyErr (List CaseRecordOut) :=
  match resp with
  | .error _ => .ok []
  | .ok data =>
    match data.timeline with
    | none => .ok []
    | some tl =>
      match parseYMD start_date with
      | none => .error .valueError
      | some ds =>
        match parseYMD end_date with
        | none => .error .valueError
        | some de =>
          .ok (tl.cases.filterMap (fun p =>
            match parseMDY p.1 with
            | none => none
            | some d =>
              if dle ds d && dle d de then
                some { date := isoFormat d
                     , country := country
                     , cases := tlget tl.cases p.1
                     , deaths := tlget tl.deaths p.1
                     , recovered := tlget tl.recovered p.1 }
              else none))

/-- A successfully decoded JSON response of the vaccination endpoint:
`timeline` (when present) is a flat date-string-to-value mapping. -/
structure VaxResponse where
  timeline : Option (List (String × PyVal))
deriving DecidableEq, Repr

/-- The filtering loop of `APIClient.fetch_vaccine_data` (api_client.py
lines 74-86).  Per-date `strptime` failure is skipped with a warning, but
`int(value)` for an in-range entry is NOT guarded: its
ValueError/TypeError aborts the whole call (the outer `except` catches
only RequestException). -/
def fvLoop (country : String) (ds de : Date) :
    List (String × PyVal) → Except PyErr (List (String × String × Int))
  | [] => .ok []
  | (k, v) :: rest =>
    match parseMDY k with
    | none => fvLoop country ds de rest
    | some d =>
      if dle ds d && dle d de then
        match pyInt v with
        | .error e => .error e
        | .ok n =>
          match fvLoop country ds de rest with
          | .error e => .error e
          | .ok tail => .ok ((country, isoFormat d, n) :: tail)
      else fvLoop country ds de rest

/-- Method `APIClient.fetch_vaccine_data` (api_client.py lines 53-93). -/
def fetch_vaccine_data (resp : Except Unit VaxResponse) (country start_date end_date : String) :
    Except PyErr (List (String × String × Int)) :=
  match resp with
  | .error _ => .ok []
  | .ok data =>
    match data.timeline with
    | none => .ok []
    | some tl =>
      match parseYMD start_date with
      | none => .error .valueError
      | some ds =>
        match parseYMD end_date with
        | none => .error .valueError
        | some de => fvLoop country ds de tl

/-! ## mysql_handler.py -/

/-- A stored row of `covid_stats` (columns country, date, cases, deaths,
recovered).  Values arrive as the transformer's tuples. -/
structure SRow where
  country : PyVal
  date : PyVal
  cases : Int
  deaths : Int
  recovered : Int
deriving DecidableEq, Repr

abbrev Table := List SRow

/-- The row currently stored under key (country, date), if any. -/
def lookupKey (t : Table) (c d : PyVal) : Option SRow :=
  t.find? (fun r => r.country == c && r.date == d)

/-- Effect of one `INSERT IGNORE` row: a row whose (country, date) key is
already present is silently skipped (first write wins); otherwise the row
is appended. -/
def insertIgnore (t : Table) (row : SRow) : Table :=
  if (lookupKey t row.country row.date).isSome then t else t ++ [row]

/-- MySQL connection state: `committed` is the durable table content,
`pending` the transaction's working view (equal to `committed` when no
transaction is open). -/
structure Conn where
  committed : Table
  pending : Table
deriving DecidableEq, Repr

/-- Call `cursor.executemany(INSERT IGNORE ..., rows)`: stages the rows in the
open transaction.  `failAt = some i` models a `mysql.connector.Error`
raised after `i` rows were staged (connection loss, datatype error, ...);
duplicate keys never raise thanks to `INSERT IGNORE`.  The `Bool` flags
whether the error was raised. -/
def executemanyInsert (c : Conn) (rows : List SRow) (failAt : Option Nat) : Conn × Bool :=
  match failAt with
  | none => ({ c with pending := rows.foldl insertIgnore c.pending }, false)
  | some i => ({ c with pending := (rows.take i).foldl insertIgnore c.pending }, true)

/-- Call `conn.commit()`: makes the pending view durable. -/
def commitConn (c : Conn) : Conn := { c with committed := c.pending }

/-- Call `conn.rollback()`: discards the pending view. -/
def rollbackConn (c : Conn) : Conn := { c with pending := c.committed }

/-- Method `MySQLHandler.insert_data` (mysql_handler.py lines 30-44): executemany
then commit; `except mysql.connector.Error` logs and rolls back, raising
nothing to the caller. -/
def insert_data (c : Conn) (rows : List SRow) (failAt : Option Nat) : Except PyErr Conn :=
  match executemanyInsert c rows failAt with
  | (c', false) => .ok (commitConn c')
  | (c', true) => .ok (rollbackConn c')

/-- Method `MySQLHandler.query` (mysql_handler.py lines 54-63): `exec` stands for
the cursor execution, `.error ()` being any `mysql.connector.Error`
(caught: log + return `[]`). -/
def dbQuery (exec : Except Unit (List (List PyVal))) : Except PyErr (List (List PyVal)) :=
  match exec with
  | .ok rows => .ok rows
  | .error _ => .ok []

/-- Method `MySQLHandler.list_tables` (mysql_handler.py lines 46-52). -/
def list_tables (exec : Except Unit (List String)) : Except PyErr (List String) :=
  match exec with
  | .ok ts => .ok ts
  | .error _ => .ok []

/-! ## Query engine (main.py query_data) and dashboard analytics -/

/-- A `covid_stats` row as read back by queries / the dashboard
(country VARCHAR, date DATE, integer metrics). -/
structure DRow where
  country : String
  date : String
  cases : Int
  deaths : Int
  recovered : Int
deriving DecidableEq, Repr

/-- The metric column names the CLI interpolates into its SQL. -/
inductive Metric where
  | cases
  | deaths
  | recovered
deriving DecidableEq, Repr

def mval : Metric → DRow → Int
  | .cases, r => r.cases
  | .deaths, r => r.deaths
  | .recovered, r => r.recovered

/-- First-occurrence deduplication (structural, with an accumulator of
already-seen keys), used to model the distinct group keys of
`GROUP BY country` (whose order MySQL leaves unspecified before the final
ORDER BY) and of pandas groupby (order irrelevant to the settled
properties). -/
def dedupFirstAux (seen : List String) : List String → List String
  | [] => []
  | c :: rest =>
    if seen.contains c then dedupFirstAux seen rest
    else c :: dedupFirstAux (c :: seen) rest

def dedupFirst (l : List String) : List String := dedupFirstAux [] l

/-- Distinct countries of a table (`GROUP BY country` keys). -/
def distinctCountries (l : List DRow) : List String :=
  dedupFirst (l.map (fun r => r.country))

/-- Aggregate `SUM(metric)` over a country's group. -/
def totalFor (l : List DRow) (m : Metric) (c : String) : Int :=
  ((l.filter (fun r => r.country == c)).map (mval m)).sum

/-- Query `SELECT country, SUM(metric) ... GROUP BY country`. -/
def groupTotals (l : List DRow) (m : Metric) : List (String × Int) :=
  (distinctCountries l).map (fun c => (c, totalFor l m c))

/-- Insertion step of a descending (non-strict) sort by the summed total;
MySQL's `ORDER BY total DESC` leaves tie order unspecified, and this
realises one admissible order. -/
def insertDescBy (x : String × Int) : List (String × Int) → List (String × Int)
  | [] => [x]
  | y :: ys => if y.2 ≤ x.2 then x :: y :: ys else y :: insertDescBy x ys

/-- Sort `ORDER BY total DESC`. -/
def sortDesc (l : List (String × Int)) : List (String × Int) :=
  l.foldr insertDescBy []

/-- The `top_n_countries_by_metric` branch of `query_data` (main.py lines
59-68): group, sum, `ORDER BY total DESC`, `LIMIT n`. -/
def top_n_by_metric (l : List DRow) (m : Metric) (n : Nat) : List (String × Int) :=
  (sortDesc (groupTotals l m)).take n

/-- An IEEE-style extended value as produced by pandas float division;
finite arithmetic is idealized as exact rationals (none of the settled
properties depends on float rounding). -/
inductive PFloat where
  | fin (q : ℚ)
  | inf
  | ninf
  | nan
deriving DecidableEq, Repr

/-- pandas elementwise division `recovered / cases`: division by zero
yields `inf` / `-inf` / `nan` (numpy true_divide warning semantics), not
an exception. -/
def pdiv (a b : Int) : PFloat :=
  if b ≠ 0 then .fin ((a : ℚ) / (b : ℚ))
  else if 0 < a then .inf
  else if a < 0 then .ninf
  else .nan

def pmul100 : PFloat → PFloat
  | .fin q => .fin (q * 100)
  | .inf => .inf
  | .ninf => .ninf
  | .nan => .nan

/-- pandas `rate > 50` filter: `inf > 50` is true, `nan > 50` is false. -/
def pgt50 : PFloat → Bool
  | .fin q => decide ((50 : ℚ) < q)
  | .inf => true
  | .ninf => false
  | .nan => false

/-- Aggregation `df.groupby("country").agg({"recovered": "sum", "cases": "sum"})` plus
the `rate` column (dashboard.py lines 219-220).  Output rows are
`(country, recovered_sum, cases_sum, rate)`; grouping order is irrelevant
to the settled properties. -/
def recoverySummary (df : List DRow) : List (String × Int × Int × PFloat) :=
  (distinctCountries df).map (fun c =>
    let recSum := ((df.filter (fun r => r.country == c)).map (fun r => r.recovered)).sum
    let caseSum := ((df.filter (fun r => r.country == c)).map (fun r => r.cases)).sum
    (c, recSum, caseSum, pmul100 (pdiv recSum caseSum)))

/-- The "Recovered Rate > 50%" analytics block (dashboard.py lines
218-221): `recovery[recovery["rate"] > 50]`. -/
def recoveredRateOverThreshold (df : List DRow) : List (String × Int × Int × PFloat) :=
  (recoverySummary df).filter (fun t => pgt50 t.2.2.2)

/-! ## main.py fetch_vaccine_data -/

/-- The attribute names defined on `MySQLHandler` (mysql_handler.py class
body: `conn`, `cursor` from `__init__`, and the five methods). -/
def mySQLHandlerAttrs : List String :=
  ["conn", "cursor", "create_tables", "insert_data", "list_tables", "query", "close"]

/-- Python attribute lookup `db.<name>` on a `MySQLHandler` instance:
AttributeError when the class defines no such attribute. -/
def getattrMySQLHandler (name : String) : Except PyErr Unit :=
  if mySQLHandlerAttrs.contains name then .ok () else .error .attributeError

/-- The CLI subcommand handler `fetch_vaccine_data` (main.py lines 75-84):
fetch, transform, then `db.insert_data_vaccine("vaccination_data", ...)`.
Returns the count the success path would print.  The `try/finally` only
closes the connection; it catches nothing. -/
def main_fetch_vaccine_data (resp : Except Unit VaxResponse) (country s e : String) :
    Except PyErr Nat :=
  match fetch_vaccine_data resp country s e with
  | .error err => .error err
  | .ok raw =>
    let transformed := transform_vaccine_data
      (raw.map (fun t => VaxInput.tup (.vStr t.1) (.vStr t.2.1) (.vInt t.2.2)))
    match getattrMySQLHandler "insert_data_vaccine" with
    | .error err => .error err
    | .ok _ => .ok transformed.length

/-- The timeline mapping carried by a vaccination response (empty when
the transport failed or the key is absent). -/
def vaxTimeline : Except Unit VaxResponse → List (String × PyVal)
  | .ok ⟨some tl⟩ => tl
  | .ok ⟨none⟩ => []
  | .error _ => []

/-! ## Helper lemmas -/

theorem digitVal?_le9 {c : Char} {v : Nat} (h : digitVal? c = some v) : v ≤ 9 := by
  unfold digitVal? at h
  split at h
  case isTrue hd =>
    simp only [Option.some.injEq] at h
    subst h
    have h57 : c.toNat ≤ 57 := by
      simp only [Char.isDigit, Bool.and_eq_true, decide_eq_true_eq] at hd
      exact hd.2
    omega
  case isFalse => exact absurd h (by simp)

theorem take1or2_le99 {l : List Char} {v : Nat} {r : List Char}
    (h : take1or2 l = some (v, r)) : v ≤ 99 := by
  unfold take1or2 at h
  split at h
  · exact absurd h (by simp)
  · split at h
    · exact absurd h (by simp)
    · rename_i c1 rest1 v1 h1
      have hv1 := digitVal?_le9 h1
      split at h
      · simp only [Option.some.injEq, Prod.mk.injEq] at h
        omega
      · split at h
        · simp only [Option.some.injEq, Prod.mk.injEq] at h
          omega
        · rename_i c2 rest2 v2 h2
          have hv2 := digitVal?_le9 h2
          simp only [Option.some.injEq, Prod.mk.injEq] at h
          omega

theorem parseMDY_bounds {s : String} {d : Date} (h : parseMDY s = some d) :
    validDate d = true ∧ 1969 ≤ d.year ∧ d.year ≤ 2068 := by
  unfold parseMDY at h
  split at h
  case _ m r1 heq1 =>
    split at h
    case _ dd r2 heq2 =>
      split at h
      case _ yy heq3 =>
        have hyy : yy ≤ 99 := take1or2_le99 heq3
        simp only [] at h
        split at h
        case isTrue h68 =>
          split at h
          case isTrue hv =>
            simp only [Option.some.injEq] at h
            subst h
            refine ⟨hv, ?_, ?_⟩
            · show 1969 ≤ 2000 + yy
              omega
            · show 2000 + yy ≤ 2068
              omega
          case isFalse => exact absurd h (by simp)
        case isFalse h68 =>
          split at h
          case isTrue hv =>
            simp only [Option.some.injEq] at h
            subst h
            refine ⟨hv, ?_, ?_⟩
            · show 1969 ≤ 1900 + yy
              omega
            · show 1900 + yy ≤ 2068
              omega
          case isFalse => exact absurd h (by simp)
      all_goals exact absurd h (by simp)
    all_goals exact absurd h (by simp)
  all_goals exact absurd h (by simp)

theorem dle_iff {a b : Date} : dle a b = true ↔ dateKey a ≤ dateKey b := by
  simp [dle]

theorem dle_trans {a b c : Date} (h1 : dle a b = true) (h2 : dle b c = true) :
    dle a c = true :=
  dle_iff.mpr (Nat.le_trans (dle_iff.mp h1) (dle_iff.mp h2))

theorem find?_append_some {α : Type} {p : α → Bool} {l₁ l₂ : List α} {b : α}
    (h : l₁.find? p = some b) : (l₁ ++ l₂).find? p = some b := by
  rw [List.find?_append, h]; rfl

theorem lookupKey_insertIgnore {t : Table} {c d : PyVal} {r row : SRow}
    (h : lookupKey t c d = some r) : lookupKey (insertIgnore t row) c d = some r := by
  unfold insertIgnore
  split
  · exact h
  · exact find?_append_some h

theorem lookupKey_foldl {rows : List SRow} {t : Table} {c d : PyVal} {r : SRow}
    (h : lookupKey t c d = some r) :
    lookupKey (rows.foldl insertIgnore t) c d = some r := by
  induction rows generalizing t with
  | nil => exact h
  | cons x xs ih => exact ih (lookupKey_insertIgnore h)

theorem mem_insertDescBy {x y : String × Int} {l : List (String × Int)}
    (hy : y ∈ insertDescBy x l) : y = x ∨ y ∈ l := by
  induction l with
  | nil => simpa [insertDescBy] using hy
  | cons z zs ih =>
    simp only [insertDescBy] at hy
    split at hy
    · rcases List.mem_cons.mp hy with h | h
      · exact Or.inl h
      · exact Or.inr h
    · rcases List.mem_cons.mp hy with h | h
      · exact Or.inr (by simp [h])
      · rcases ih h with h' | h'
        · exact Or.inl h'
        · exact Or.inr (by simp [h'])

theorem pairwise_insertDescBy {x : String × Int} {l : List (String × Int)}
    (h : l.Pairwise (fun a b => b.2 ≤ a.2)) :
    (insertDescBy x l).Pairwise (fun a b => b.2 ≤ a.2) := by
  induction l with
  | nil => simp [insertDescBy]
  | cons z zs ih =>
    simp only [insertDescBy]
    rcases List.pairwise_cons.mp h with ⟨hz, hzs⟩
    split
    case isTrue hle =>
      refine List.pairwise_cons.mpr ⟨?_, h⟩
      intro w hw
      rcases List.mem_cons.mp hw with rfl | hw
      · exact hle
      · exact le_trans (hz _ hw) hle
    case isFalse hgt =>
      refine List.pairwise_cons.mpr ⟨?_, ih hzs⟩
      intro w hw
      rcases mem_insertDescBy hw with rfl | hw
      · omega
      · exact hz _ hw

theorem pairwise_sortDesc (l : List (String × Int)) :
    (sortDesc l).Pairwise (fun a b => b.2 ≤ a.2) := by
  induction l with
  | nil => simp [sortDesc]
  | cons x xs ih => exact pairwise_insertDescBy ih

theorem fvLoop_total (country : String) (ds de : Date) (tl : List (String × PyVal))
    (h : ∀ p ∈ tl, ∀ d, parseMDY p.1 = some d → (dle ds d && dle d de) = true →
      ∃ n, pyInt p.2 = .ok n) :
    ∃ out, fvLoop country ds de tl = .ok out := by
  induction tl with
  | nil => exact ⟨[], rfl⟩
  | cons p rest ih =>
    obtain ⟨k, v⟩ := p
    have hrest := fun q hq => h q (List.mem_cons_of_mem _ hq)
    obtain ⟨tail, htail⟩ := ih hrest
    cases hpd : parseMDY k with
    | none =>
      refine ⟨tail, ?_⟩
      simp only [fvLoop, hpd]
      exact htail
    | some d =>
      by_cases hcond : (dle ds d && dle d de) = true
      · obtain ⟨n, hn⟩ := h (k, v) (List.mem_cons_self _ _) d hpd hcond
        refine ⟨(country, isoFormat d, n) :: tail, ?_⟩
        simp only [fvLoop, hpd, hcond, if_true, hn, htail]
      · refine ⟨tail, ?_⟩
        simp only [fvLoop, hpd]
        rw [if_neg hcond]
        exact htail

theorem fvLoop_shape (country : String) (ds de : Date) (tl : List (String × PyVal))
    (out : List (String × String × Int)) (h : fvLoop country ds de tl = .ok out) :
    ∀ rec ∈ out, rec.1 = country ∧
      ∃ d, validDate d = true ∧ 1969 ≤ d.year ∧ d.year ≤ 2068 ∧
        dle ds d = true ∧ dle d de = true ∧ rec.2.1 = isoFormat d := by
  induction tl generalizing out with
  | nil =>
    simp only [fvLoop, Except.ok.injEq] at h
    subst h
    intro rec hrec
    cases hrec
  | cons p rest ih =>
    obtain ⟨k, v⟩ := p
    simp only [fvLoop] at h
    cases hpd : parseMDY k with
    | none =>
      simp only [hpd] at h
      exact ih out h
    | some d =>
      simp only [hpd] at h
      by_cases hcond : (dle ds d && dle d de) = true
      · rw [if_pos hcond] at h
        cases hv : pyInt v with
        | error er => rw [hv] at h; cases h
        | ok n =>
          rw [hv] at h
          cases hrec2 : fvLoop country ds de rest with
          | error er => rw [hrec2] at h; cases h
          | ok tail =>
            rw [hrec2] at h
            simp only [Except.ok.injEq] at h
            subst h
            intro rec hrec
            rcases List.mem_cons.mp hrec with rfl | hm
            · obtain ⟨hvalid, h1, h2⟩ := parseMDY_bounds hpd
              simp only [Bool.and_eq_true] at hcond
              obtain ⟨hc1, hc2⟩ := hcond
              exact ⟨rfl, d, hvalid, h1, h2, hc1, hc2, rfl⟩
            · exact ih tail hrec2 rec hm
      · rw [if_neg hcond] at h
        exact ih out h

/-! ## Claim theorems -/

/-- C2: for every stored table state and every batch of records, inserting
a record whose (country, date) pair already exists is a silent no-op —
the previously stored row's values are unchanged (first write wins, never
overwritten) and no error is raised. -/
theorem c2_duplicate_insert_noop
    (c : Conn) (hc : c.pending = c.committed)
    (batch : List SRow) (co da : PyVal) (r : SRow)
    (hr : lookupKey c.committed co da = some r) :
    (insert_data c batch none).isOk = true ∧
    ∀ c2, insert_data c batch none = .ok c2 → lookupKey c2.committed co da = some r := by
  constructor
  · rfl
  · intro c2 h
    simp only [insert_data, executemanyInsert, Except.ok.injEq] at h
    subst h
    show lookupKey (batch.foldl insertIgnore c.pending) co da = some r
    rw [hc]
    exact lookupKey_foldl hr

/-- Witness for C2: re-inserting a (USA, 2021-01-01) row with different
metric values leaves the originally stored row in place. -/
theorem c2_witness :
    lookupKey [⟨.vStr "USA", .vStr "2021-01-01", 100, 2, 50⟩]
      (.vStr "USA") (.vStr "2021-01-01") = some ⟨.vStr "USA", .vStr "2021-01-01", 100, 2, 50⟩ :=
  (c2_duplicate_insert_noop
      ⟨[⟨.vStr "USA", .vStr "2021-01-01", 100, 2, 50⟩], [⟨.vStr "USA", .vStr "2021-01-01", 100, 2, 50⟩]⟩
      rfl [⟨.vStr "USA", .vStr "2021-01-01", 999, 9, 99⟩]
      (.vStr "USA") (.vStr "2021-01-01") ⟨.vStr "USA", .vStr "2021-01-01", 100, 2, 50⟩ rfl).2
    ⟨[⟨.vStr "USA", .vStr "2021-01-01", 100, 2, 50⟩], [⟨.vStr "USA", .vStr "2021-01-01", 100, 2, 50⟩]⟩
    rfl

/-- C9: a batch insert that fails partway is rolled back whole — the
committed table state is exactly as before the insert was attempted (and
the transaction view is reset to it), and no exception surfaces to the
caller (the result is an `ok` connection, never an error). -/
theorem c9_partial_failure_rolls_back (c : Conn) (batch : List SRow) (i : Nat) :
    insert_data c batch (some i) =
      .ok { committed := c.committed, pending := c.committed } := rfl

/-- C8 counterexample: with two countries tied at total 10 the output of
top_n_by_metric is the two tied rows, which are NOT strictly descending
by summed metric, refuting the strictness part of the claim. -/
theorem c8_counterexample :
    top_n_by_metric [⟨"A", "2021-01-01", 10, 0, 0⟩, ⟨"B", "2021-01-02", 10, 0, 0⟩]
        Metric.cases 2 = [("A", 10), ("B", 10)] ∧
    ¬ List.Chain' (fun a b : String × Int => b.2 < a.2)
      (top_n_by_metric [⟨"A", "2021-01-01", 10, 0, 0⟩, ⟨"B", "2021-01-02", 10, 0, 0⟩]
        Metric.cases 2) := by
  have h1 : top_n_by_metric [⟨"A", "2021-01-01", 10, 0, 0⟩, ⟨"B", "2021-01-02", 10, 0, 0⟩]
      Metric.cases 2 = [("A", 10), ("B", 10)] := rfl
  refine ⟨h1, ?_⟩
  rw [h1]
  simp

/-- C8 (amended): for every stored dataset, metric and n,
top_n_by_metric returns at most n rows, ordered descending (non-strictly:
ties may be adjacent with equal totals) by the summed metric value per
country. -/
theorem c8_top_n_at_most_n_sorted (l : List DRow) (m : Metric) (n : Nat) :
    (top_n_by_metric l m n).length ≤ n ∧
    (top_n_by_metric l m n).Pairwise (fun a b => b.2 ≤ a.2) := by
  constructor
  · exact List.length_take_le ..
  · exact (pairwise_sortDesc (groupTotals l m)).sublist (List.take_sublist n _)

/-- C5 (code bug): a country with zero total cases and positive recovered
is NOT excluded by the Recovered Rate > 50% block — the unguarded pandas
division produces an infinite rate which passes the `> 50` filter, so the
country is included and represented as infinity, contradicting the
specified division-by-zero guard. -/
theorem c5_zero_cases_inf_included :
    recoveredRateOverThreshold [⟨"X", "2021-01-01", 0, 0, 5⟩] =
      [("X", 5, 0, PFloat.inf)] := rfl

/-- C4 (code bug): whenever the fetch succeeds, the fetch_vaccine_data CLI
subcommand raises AttributeError instead of writing the records, because
MySQLHandler defines no method named insert_data_vaccine. -/
theorem c4_fetch_vaccine_cli_attribute_error
    (resp : Except Unit VaxResponse) (country s e : String)
    (raw : List (String × String × Int))
    (h : fetch_vaccine_data resp country s e = .ok raw) :
    main_fetch_vaccine_data resp country s e = .error .attributeError := by
  unfold main_fetch_vaccine_data
  rw [h]
  rfl

/-- Witness for C4: a concrete successful fetch of one vaccination record
still ends in AttributeError. -/
theorem c4_witness :
    main_fetch_vaccine_data (.ok ⟨some [("1/2/21", .vInt 5)]⟩)
      "usa" "2021-01-01" "2021-01-10" = .error .attributeError :=
  c4_fetch_vaccine_cli_attribute_error _ "usa" "2021-01-01" "2021-01-10"
    [("usa", "2021-01-02", 5)] rfl

/-- C7: for every country, date and vaccinations value, a 3-tuple record
and a mapping record carrying the named fields country/date/vaccinations
normalize to the same output tuple. -/
theorem c7_tuple_mapping_agree (c d v : PyVal) (r : Record)
    (hc : rget? r "country" = some c) (hd : rget? r "date" = some d)
    (hv : rget? r "vaccinations" = some v) :
    normalizeVaxRecord (.tup c d v) = normalizeVaxRecord (.map r) := by
  simp [normalizeVaxRecord, rget, hc, hd, hv]

/-- Witness for C7: tuple and mapping shapes agree on a concrete record
(including one whose vaccinations value fails int coercion). -/
theorem c7_witness :
    normalizeVaxRecord (.tup (.vStr "usa") (.vStr "2021-01-01") (.vStr "abc")) =
      normalizeVaxRecord (.map [("country", .vStr "usa"), ("date", .vStr "2021-01-01"),
        ("vaccinations", .vStr "abc")]) :=
  c7_tuple_mapping_agree _ _ _ _ rfl rfl rfl

/-- C6: normalize_cases coerces each numeric field independently
(substituting 0 for a missing or non-coercible value), never drops a
record (one output tuple per input record, and the record's own tuple is
in the output), and defaults country to "Unknown" when absent. -/
theorem c6_normalize_cases_per_field
    (l : List Record) (r : Record) (hr : r ∈ l) :
    (transform_data l).length = l.length ∧
    normalizeCaseRecord r ∈ transform_data l ∧
    (rget? r "deaths" = none → (normalizeCaseRecord r).deaths = 0) ∧
    (∀ v er, rget? r "cases" = some v → pyInt v = .error er →
      (normalizeCaseRecord r).cases = 0) ∧
    (rget? r "country" = none → (normalizeCaseRecord r).country = .vStr "Unknown") := by
  refine ⟨by simp [transform_data], List.mem_map_of_mem _ hr, ?_, ?_, ?_⟩
  · intro h
    simp [normalizeCaseRecord, rget, h, coerceInt, pyInt]
  · intro v er hv herr
    simp [normalizeCaseRecord, rget, hv, coerceInt, herr]
  · intro h
    simp [normalizeCaseRecord, rget, h]

/-- Witness for C6: a record with cases = "abc" and no deaths/country
field yields cases = 0, deaths = 0, country = "Unknown", and stays one
record. -/
theorem c6_witness :
    (normalizeCaseRecord [("cases", .vStr "abc")]).deaths = 0 ∧
    (normalizeCaseRecord [("cases", .vStr "abc")]).cases = 0 ∧
    (normalizeCaseRecord [("cases", .vStr "abc")]).country = .vStr "Unknown" ∧
    (transform_data [[("cases", .vStr "abc")]]).length = 1 := by
  have h := c6_normalize_cases_per_field [[("cases", PyVal.vStr "abc")]]
    [("cases", PyVal.vStr "abc")] (by simp)
  exact ⟨h.2.2.1 rfl, h.2.2.2.1 (PyVal.vStr "abc") PyErr.valueError rfl rfl,
    h.2.2.2.2 rfl, h.1⟩

/-- C1 counterexample: fetch_vaccinations DOES raise to its caller — an
in-range timeline entry whose value is not int-coercible makes the
unguarded int(value) raise ValueError, which the RequestException-only
except clause does not catch. -/
theorem c1_counterexample :
    fetch_vaccine_data (.ok ⟨some [("1/2/21", .vStr "abc")]⟩)
      "usa" "2021-01-01" "2021-01-10" = .error .valueError := rfl

/-- C1 (amended): the core operations raise no exception provided the
start/end date arguments parse as %Y-%m-%d and every in-range vaccination
timeline value is int-coercible; Store.insert, Store.query and
list_tables raise for no input at all — every handled failure surfaces
only as an ok (possibly empty/degraded) result. -/
theorem c1_core_fail_soft
    (respC : Except Unit CaseResponse) (respV : Except Unit VaxResponse)
    (country s e : String) (ds de : Date)
    (hs : parseYMD s = some ds) (he : parseYMD e = some de)
    (hvals : ∀ p ∈ vaxTimeline respV, ∀ d, parseMDY p.1 = some d →
      (dle ds d && dle d de) = true → ∃ n, pyInt p.2 = .ok n)
    (c : Conn) (rows : List SRow) (failAt : Option Nat)
    (q : Except Unit (List (List PyVal))) (ts : Except Unit (List String)) :
    (fetch_data respC country s e).isOk = true ∧
    (fetch_vaccine_data respV country s e).isOk = true ∧
    (insert_data c rows failAt).isOk = true ∧
    (dbQuery q).isOk = true ∧
    (list_tables ts).isOk = true := by
  refine ⟨?_, ?_, ?_, ?_, ?_⟩
  · cases respC with
    | error u => rfl
    | ok data =>
      obtain ⟨tml⟩ := data
      cases tml with
      | none => rfl
      | some tl =>
        simp only [fetch_data, hs, he]
        rfl
  · cases respV with
    | error u => rfl
    | ok data =>
      obtain ⟨tml⟩ := data
      cases tml with
      | none => rfl
      | some tl =>
        obtain ⟨out, hout⟩ := fvLoop_total country ds de tl hvals
        simp only [fetch_vaccine_data, hs, he, hout]
        rfl
  · cases failAt with
    | none => rfl
    | some i => rfl
  · cases q with
    | ok rows2 => rfl
    | error u => rfl
  · cases ts with
    | ok names2 => rfl
    | error u => rfl

/-- Witness for C1 (amended): all five core operations return ok on
concrete inputs (failed transports and an empty insert included). -/
theorem c1_witness :
    (fetch_data (.error ()) "usa" "2021-01-01" "2021-01-10").isOk = true ∧
    (fetch_vaccine_data (.error ()) "usa" "2021-01-01" "2021-01-10").isOk = true ∧
    (insert_data ⟨[], []⟩ [] none).isOk = true ∧
    (dbQuery (.error ())).isOk = true ∧
    (list_tables (.error ())).isOk = true :=
  c1_core_fail_soft (.error ()) (.error ()) "usa" "2021-01-01" "2021-01-10"
    ⟨2021, 1, 1⟩ ⟨2021, 1, 10⟩ rfl rfl
    (fun p hp => absurd hp (List.not_mem_nil p))
    ⟨[], []⟩ [] none (.error ()) (.error ())

/-- C3: every record returned by fetch_cases has a parsed date lying in
[start, end] inclusive (comparison on parsed dates, the record carrying
its ISO rendering), and a start date strictly after the end date yields
an empty sequence. -/
theorem c3_fetch_cases_range
    (resp : Except Unit CaseResponse) (country s e : String) (ds de : Date)
    (hs : parseYMD s = some ds) (he : parseYMD e = some de)
    (out : List CaseRecordOut) (hout : fetch_data resp country s e = .ok out) :
    (∀ rec ∈ out, ∃ d, dle ds d = true ∧ dle d de = true ∧ rec.date = isoFormat d) ∧
    (dle ds de = false → out = []) := by
  cases resp with
  | error u =>
    simp only [fetch_data, Except.ok.injEq] at hout
    subst hout
    exact ⟨fun rec hrec => absurd hrec (List.not_mem_nil rec), fun _ => rfl⟩
  | ok data =>
    obtain ⟨tml⟩ := data
    cases tml with
    | none =>
      simp only [fetch_data, Except.ok.injEq] at hout
      subst hout
      exact ⟨fun rec hrec => absurd hrec (List.not_mem_nil rec), fun _ => rfl⟩
    | some tl =>
      simp only [fetch_data, hs, he, Except.ok.injEq] at hout
      subst hout
      constructor
      · intro rec hrec
        rw [List.mem_filterMap] at hrec
        obtain ⟨p, hp, hfp⟩ := hrec
        cases hpd : parseMDY p.1 with
        | none => simp [hpd] at hfp
        | some d =>
          simp only [hpd] at hfp
          by_cases hcond : (dle ds d && dle d de) = true
          · rw [if_pos hcond] at hfp
            simp only [Option.some.injEq] at hfp
            subst hfp
            simp only [Bool.and_eq_true] at hcond
            exact ⟨d, hcond.1, hcond.2, rfl⟩
          · rw [if_neg hcond] at hfp
            simp at hfp
      · intro hltfalse
        rw [List.filterMap_eq_nil_iff]
        intro p hp
        cases hpd : parseMDY p.1 with
        | none => simp [hpd]
        | some d =>
          simp only [hpd]
          cases hcond : (dle ds d && dle d de) with
          | true =>
            simp only [Bool.and_eq_true] at hcond
            have htr := dle_trans hcond.1 hcond.2
            rw [hltfalse] at htr
            exact absurd htr (by simp)
          | false => simp [hcond]

/-- Witness for C3: for a reversed range (start 2021-01-10, end
2021-01-01) the fetch returns the empty list even though the timeline
holds an entry. -/
theorem c3_witness :
    dle ⟨2021, 1, 10⟩ ⟨2021, 1, 1⟩ = false ∧
    fetch_data (.ok ⟨some ⟨[("1/2/21", .vInt 9)], [], []⟩⟩)
      "usa" "2021-01-10" "2021-01-01" = .ok [] := by
  refine ⟨rfl, ?_⟩
  have h := (c3_fetch_cases_range (.ok ⟨some ⟨[("1/2/21", .vInt 9)], [], []⟩⟩)
      "usa" "2021-01-10" "2021-01-01" ⟨2021, 1, 10⟩ ⟨2021, 1, 1⟩ rfl rfl _ rfl).2 rfl
  rw [← h]
  rfl

/-- C10: every record the two fetchers return carries the caller's
country argument verbatim and a date string that is the ISO rendering of
a validly parsed calendar date with a four-digit year (so never the
upstream M/D/YY form). -/
theorem c10_fetch_output_invariant
    (respC : Except Unit CaseResponse) (respV : Except Unit VaxResponse)
    (country s e : String)
    (outC : List CaseRecordOut) (outV : List (String × String × Int))
    (hC : fetch_data respC country s e = .ok outC)
    (hV : fetch_vaccine_data respV country s e = .ok outV) :
    (∀ rec ∈ outC, rec.country = country ∧
      ∃ d, validDate d = true ∧ 1969 ≤ d.year ∧ d.year ≤ 2068 ∧ rec.date = isoFormat d) ∧
    (∀ rec ∈ outV, rec.1 = country ∧
      ∃ d, validDate d = true ∧ 1969 ≤ d.year ∧ d.year ≤ 2068 ∧ rec.2.1 = isoFormat d) := by
  constructor
  · cases respC with
    | error u =>
      simp only [fetch_data, Except.ok.injEq] at hC
      subst hC
      exact fun rec hrec => absurd hrec (List.not_mem_nil rec)
    | ok data =>
      obtain ⟨tml⟩ := data
      cases tml with
      | none =>
        simp only [fetch_data, Except.ok.injEq] at hC
        subst hC
        exact fun rec hrec => absurd hrec (List.not_mem_nil rec)
      | some tl =>
        cases hps : parseYMD s with
        | none => simp [fetch_data, hps] at hC
        | some ds =>
          cases hpe : parseYMD e with
          | none => simp [fetch_data, hps, hpe] at hC
          | some de =>
            simp only [fetch_data, hps, hpe, Except.ok.injEq] at hC
            subst hC
            intro rec hrec
            rw [List.mem_filterMap] at hrec
            obtain ⟨p, hp, hfp⟩ := hrec
            cases hpd : parseMDY p.1 with
            | none => simp [hpd] at hfp
            | some d =>
              simp only [hpd] at hfp
              by_cases hcond : (dle ds d && dle d de) = true
              · rw [if_pos hcond] at hfp
                simp only [Option.some.injEq] at hfp
                subst hfp
                obtain ⟨hv, h1, h2⟩ := parseMDY_bounds hpd
                exact ⟨rfl, d, hv, h1, h2, rfl⟩
              · rw [if_neg hcond] at hfp
                simp at hfp
  · cases respV with
    | error u =>
      simp only [fetch_vaccine_data, Except.ok.injEq] at hV
      subst hV
      exact fun rec hrec => absurd hrec (List.not_mem_nil rec)
    | ok data =>
      obtain ⟨tml⟩ := data
      cases tml with
      | none =>
        simp only [fetch_vaccine_data, Except.ok.injEq] at hV
        subst hV
        exact fun rec hrec => absurd hrec (List.not_mem_nil rec)
      | some tl =>
        cases hps : parseYMD s with
        | none => simp [fetch_vaccine_data, hps] at hV
        | some ds =>
          cases hpe : parseYMD e with
          | none => simp [fetch_vaccine_data, hps, hpe] at hV
          | some de =>
            simp only [fetch_vaccine_data, hps, hpe] at hV
            intro rec hrec
            obtain ⟨hcountry, d, hv, h1, h2, _, _, hiso⟩ :=
              fvLoop_shape country ds de tl outV hV rec hrec
            exact ⟨hcountry, d, hv, h1, h2, hiso⟩

/-- Witness for C10: records produced by concrete fetches carry the
caller's country verbatim. -/
theorem c10_witness :
    ({ date := "2021-01-02", country := "usa", cases := .vInt 9, deaths := .vInt 0,
        recovered := .vInt 0 } : CaseRecordOut).country = "usa" ∧
    (("usa", "2021-01-02", 5) : String × String × Int).1 = "usa" := by
  have h := c10_fetch_output_invariant
    (.ok ⟨some ⟨[("1/2/21", .vInt 9)], [], []⟩⟩)
    (.ok ⟨some [("1/2/21", .vInt 5)]⟩) "usa" "2021-01-01" "2021-01-10"
    [{ date := "2021-01-02", country := "usa", cases := .vInt 9, deaths := .vInt 0,
        recovered := .vInt 0 }]
    [("usa", "2021-01-02", 5)] rfl rfl
  exact ⟨(h.1 _ (by simp)).1, (h.2 _ (by simp)).1⟩

end ETL
